import Mathlib

/-!
Shallow embedding of the order-management microservice
(`src/unnamed/part_001`, an Express router over an in-memory `orders`
array) and proofs about the claims of its specification.

Modelling conventions:
* JSON request bodies are modelled by the inductive `JsonVal`;
  JS numbers are modelled as exact rationals (`ℚ`).
* `uuidv4()` identifiers are modelled by a fresh-counter field
  `nextId` of the store state (uuid uniqueness is the freshness of
  the counter); ids are therefore `Nat`.
* `new Date().toISOString()` timestamps are modelled as a `Nat`
  clock value passed to each mutating operation; the two consecutive
  `new Date()` calls inside one handler are modelled as the same
  instant.
* Joi validation: `orderSchema.validate(body)` runs with Joi's
  default `abortEarly: true`, so `error.details` carries exactly the
  first violation found in schema traversal order.  We model the
  full list of violations (`orderSchemaErrors`, traversal order) and
  let `validateOrder` return the `take 1` prefix, as the library
  does.  Joi's rejection of unknown object keys is not modelled (no
  claim depends on it).
-/

deriving instance DecidableEq for Except

namespace OrdersSvc

/-- A JSON value, as delivered by Express's body parser. -/
inductive JsonVal where
  | jstr (s : String)
  | jnum (q : ℚ)
  | jbool (b : Bool)
  | jnull
  | jarr (xs : List JsonVal)
  | jobj (fields : List (String × JsonVal))
deriving Repr

/-- Look a key up in a JSON object's field list (first binding wins,
as in a JS object where later duplicates would have overwritten —
request bodies have unique keys). -/
def getField (fields : List (String × JsonVal)) (k : String) : Option JsonVal :=
  match fields.find? (fun p => p.1 == k) with
  | some p => some p.2
  | none => none

/-- One Joi violation message, modelled structurally: the `path` is
the position inside the request body, the constructor identifies the
violated constraint. -/
inductive VMsg where
  | missing (path : List String)
  | emptyStr (path : List String)
  | wrongType (path : List String) (expected : String)
  | arrayMin (path : List String) (n : Nat)
  | notInteger (path : List String)
  | numMin (path : List String) (n : Int)
  | notPositive (path : List String)
deriving Repr, DecidableEq

/-- Violations of `Joi.string().required()` at a field. -/
def reqStringErrs (path : List String) (v : Option JsonVal) : List VMsg :=
  match v with
  | none => [VMsg.missing path]
  | some (JsonVal.jstr s) => if s = "" then [VMsg.emptyStr path] else []
  | some _ => [VMsg.wrongType path "string"]

/-- Violations of `Joi.number().integer().min(1).required()`
(the `quantity` field). -/
def quantityErrs (path : List String) (v : Option JsonVal) : List VMsg :=
  match v with
  | none => [VMsg.missing path]
  | some (JsonVal.jnum q) =>
      (if q.den = 1 then [] else [VMsg.notInteger path])
        ++ (if q < 1 then [VMsg.numMin path 1] else [])
  | some _ => [VMsg.wrongType path "number"]

/-- Violations of `Joi.number().positive().required()`
(the `price` field). -/
def priceErrs (path : List String) (v : Option JsonVal) : List VMsg :=
  match v with
  | none => [VMsg.missing path]
  | some (JsonVal.jnum q) => if 0 < q then [] else [VMsg.notPositive path]
  | some _ => [VMsg.wrongType path "number"]

/-- Violations of the item schema
`Joi.object(\x7bproductId, quantity, price\x7d)` at one array element. -/
def itemErrs (path : List String) (v : JsonVal) : List VMsg :=
  match v with
  | JsonVal.jobj fields =>
      reqStringErrs (path ++ ["productId"]) (getField fields "productId")
        ++ quantityErrs (path ++ ["quantity"]) (getField fields "quantity")
        ++ priceErrs (path ++ ["price"]) (getField fields "price")
  | _ => [VMsg.wrongType path "object"]

/-- Violations of the item schema over the elements of the `items`
array, each under its index in the path. -/
def itemListErrs (path : List String) (i : Nat) : List JsonVal → List VMsg
  | [] => []
  | x :: xs => itemErrs (path ++ [toString i]) x ++ itemListErrs path (i + 1) xs

/-- Violations of `Joi.array().items(itemSchema).min(1).required()`. -/
def itemsErrs (path : List String) (v : Option JsonVal) : List VMsg :=
  match v with
  | none => [VMsg.missing path]
  | some (JsonVal.jarr xs) =>
      itemListErrs path 0 xs
        ++ (if xs.length < 1 then [VMsg.arrayMin path 1] else [])
  | some _ => [VMsg.wrongType path "array"]

/-- Violations of the shipping-address schema
`Joi.object(\x7bstreet, city, zipCode, country\x7d).required()`. -/
def addressErrs (path : List String) (v : Option JsonVal) : List VMsg :=
  match v with
  | none => [VMsg.missing path]
  | some (JsonVal.jobj fields) =>
      reqStringErrs (path ++ ["street"]) (getField fields "street")
        ++ reqStringErrs (path ++ ["city"]) (getField fields "city")
        ++ reqStringErrs (path ++ ["zipCode"]) (getField fields "zipCode")
        ++ reqStringErrs (path ++ ["country"]) (getField fields "country")
  | some _ => [VMsg.wrongType path "object"]

/-- All violations of `orderSchema` in a request body, in Joi's
schema traversal order (`customerId`, `items`, `shippingAddress`). -/
def orderSchemaErrors (v : JsonVal) : List VMsg :=
  match v with
  | JsonVal.jobj fields =>
      reqStringErrs ["customerId"] (getField fields "customerId")
        ++ itemsErrs ["items"] (getField fields "items")
        ++ addressErrs ["shippingAddress"] (getField fields "shippingAddress")
  | _ => [VMsg.wrongType [] "object"]

/-- A validated line item. -/
structure Item where
  productId : String
  quantity : Int
  price : ℚ
deriving Repr, DecidableEq

/-- A validated shipping address. -/
structure Address where
  street : String
  city : String
  zipCode : String
  country : String
deriving Repr, DecidableEq

/-- The payload of a creation request that passed validation. -/
structure OrderInput where
  customerId : String
  items : List Item
  shippingAddress : Address
deriving Repr, DecidableEq

/-- Parse a required non-empty string field. -/
def parseReqString (v : Option JsonVal) : Option String :=
  match v with
  | some (JsonVal.jstr s) => if s = "" then none else some s
  | _ => none

/-- Parse the `quantity` field: an integer number that is at least 1. -/
def parseQuantity (v : Option JsonVal) : Option Int :=
  match v with
  | some (JsonVal.jnum q) => if q.den = 1 ∧ 1 ≤ q then some q.num else none
  | _ => none

/-- Parse the `price` field: a positive number. -/
def parsePrice (v : Option JsonVal) : Option ℚ :=
  match v with
  | some (JsonVal.jnum q) => if 0 < q then some q else none
  | _ => none

/-- Parse one element of the `items` array. -/
def parseItem (v : JsonVal) : Option Item :=
  match v with
  | JsonVal.jobj fields =>
      match parseReqString (getField fields "productId"),
            parseQuantity (getField fields "quantity"),
            parsePrice (getField fields "price") with
      | some p, some q, some pr => some ⟨p, q, pr⟩
      | _, _, _ => none
  | _ => none

/-- Parse the elements of the `items` array. -/
def parseItemList : List JsonVal → Option (List Item)
  | [] => some []
  | x :: xs =>
      match parseItem x, parseItemList xs with
      | some i, some is => some (i :: is)
      | _, _ => none

/-- Parse the `items` field: a non-empty array of valid items. -/
def parseItems (v : Option JsonVal) : Option (List Item) :=
  match v with
  | some (JsonVal.jarr xs) =>
      match parseItemList xs with
      | some is => if xs.length < 1 then none else some is
      | none => none
  | _ => none

/-- Parse the `shippingAddress` field. -/
def parseAddress (v : Option JsonVal) : Option Address :=
  match v with
  | some (JsonVal.jobj fields) =>
      match parseReqString (getField fields "street"),
            parseReqString (getField fields "city"),
            parseReqString (getField fields "zipCode"),
            parseReqString (getField fields "country") with
      | some st, some c, some z, some co => some ⟨st, c, z, co⟩
      | _, _, _, _ => none
  | _ => none

/-- Parse a whole creation request body against `orderSchema`. -/
def parseOrder (v : JsonVal) : Option OrderInput :=
  match v with
  | JsonVal.jobj fields =>
      match parseReqString (getField fields "customerId"),
            parseItems (getField fields "items"),
            parseAddress (getField fields "shippingAddress") with
      | some c, some is, some a => some ⟨c, is, a⟩
      | _, _, _ => none
  | _ => none

/-- `orderSchema.validate(body)`: Joi runs with its default
`abortEarly: true`, so on failure `error.details` holds exactly the
first violation in traversal order. -/
def validateOrder (v : JsonVal) : Except (List VMsg) OrderInput :=
  match parseOrder v with
  | some o => Except.ok o
  | none => Except.error ((orderSchemaErrors v).take 1)

/-- A stored order (one element of the `orders` array). -/
structure Order where
  id : Nat
  customerId : String
  items : List Item
  shippingAddress : Address
  status : String
  total : ℚ
  createdAt : Nat
  updatedAt : Nat
deriving Repr, DecidableEq

/-- The store state: the module-level `orders` array, plus the
fresh-id counter that models `uuidv4()`. -/
structure StoreState where
  orders : List Order
  nextId : Nat
deriving Repr, DecidableEq

/-- The empty store at process start (`let orders = []`). -/
def initState : StoreState := ⟨[], 0⟩

/-- Errors of the id-addressed routes. -/
inductive ReqError where
  | notFound
  | invalidStatus (given : String) (valid : List String)
deriving Repr, DecidableEq

/-- `validStatuses` from the status-update handler. -/
def validStatuses : List String :=
  ["pending", "processing", "shipped", "delivered", "cancelled"]

/-- `Array.prototype.findIndex`, as `none` instead of `-1`. -/
def findIndex (p : α → Bool) : List α → Option Nat
  | [] => none
  | x :: xs => if p x then some 0 else (findIndex p xs).map (· + 1)

/-- `Array.prototype.slice(start, stop)` for non-negative indices. -/
def jsSlice (l : List α) (start stop : Nat) : List α :=
  (l.drop start).take (stop - start)

/-- `value.items.reduce((sum, item) => sum + item.price * item.quantity, 0)`. -/
def orderTotal (items : List Item) : ℚ :=
  items.foldl (fun sum item => sum + item.price * (item.quantity : ℚ)) 0

/-- The order object built by the creation handler: fresh id, the
validated payload, status `pending`, derived total, both timestamps
stamped with the handler's clock. -/
def newOrder (s : StoreState) (value : OrderInput) (now : Nat) : Order :=
  { id := s.nextId
    customerId := value.customerId
    items := value.items
    shippingAddress := value.shippingAddress
    status := "pending"
    total := orderTotal value.items
    createdAt := now
    updatedAt := now }

/-- `POST /api/orders`: validate, then build and append the order. -/
def createOp (s : StoreState) (body : JsonVal) (now : Nat) :
    Except (List VMsg) Order × StoreState :=
  match validateOrder body with
  | Except.error msgs => (Except.error msgs, s)
  | Except.ok value =>
      (Except.ok (newOrder s value now),
       { orders := s.orders ++ [newOrder s value now], nextId := s.nextId + 1 })

/-- The `status` filter of `GET /api/orders`: `if (status)` is a JS
truthiness test, so an absent or empty-string status leaves the
collection unfiltered. -/
def filterByStatus (orders : List Order) (status : Option String) : List Order :=
  match status with
  | some st => if st = "" then orders else orders.filter (fun o => o.status == st)
  | none => orders

/-- The pagination metadata returned by `GET /api/orders`. -/
structure Pagination where
  page : Nat
  limit : Nat
  total : Nat
  pages : Nat
deriving Repr, DecidableEq

/-- `GET /api/orders`: filter, slice, report pagination metadata.
`Math.ceil(filteredOrders.length / limit)` is modelled as the ceiling
of exact rational division. -/
def listOp (s : StoreState) (status : Option String) (page limit : Nat) :
    (List Order × Pagination) × StoreState :=
  let filteredOrders := filterByStatus s.orders status
  let startIndex := (page - 1) * limit
  let endIndex := page * limit
  let paginatedOrders := jsSlice filteredOrders startIndex endIndex
  ((paginatedOrders,
    { page := page
      limit := limit
      total := filteredOrders.length
      pages := Nat.ceil ((filteredOrders.length : ℚ) / (limit : ℚ)) }), s)

/-- `GET /api/orders/:id`: `orders.find(o => o.id === req.params.id)`. -/
def getByIdOp (s : StoreState) (oid : Nat) : Except ReqError Order × StoreState :=
  match s.orders.find? (fun o => o.id == oid) with
  | some order => (Except.ok order, s)
  | none => (Except.error ReqError.notFound, s)

/-- `PUT /api/orders/:id/status`: membership of the new status in
`validStatuses` is checked before the order is looked up. -/
def updateStatusOp (s : StoreState) (oid : Nat) (status : String) (now : Nat) :
    Except ReqError Order × StoreState :=
  if validStatuses.contains status then
    match findIndex (fun o => o.id == oid) s.orders with
    | some i =>
        match s.orders[i]? with
        | some o =>
            let updated := { o with status := status, updatedAt := now }
            (Except.ok updated, { s with orders := s.orders.set i updated })
        | none => (Except.error ReqError.notFound, s)
    | none => (Except.error ReqError.notFound, s)
  else
    (Except.error (ReqError.invalidStatus status validStatuses), s)

/-- `DELETE /api/orders/:id`: `orders.splice(orderIndex, 1)[0]`. -/
def deleteOp (s : StoreState) (oid : Nat) : Except ReqError Order × StoreState :=
  match findIndex (fun o => o.id == oid) s.orders with
  | some i =>
      match s.orders[i]? with
      | some o => (Except.ok o, { s with orders := s.orders.eraseIdx i })
      | none => (Except.error ReqError.notFound, s)
  | none => (Except.error ReqError.notFound, s)

/-- One request to the router. -/
inductive Op where
  | create (body : JsonVal) (now : Nat)
  | list (status : Option String) (page limit : Nat)
  | getById (oid : Nat)
  | updateStatus (oid : Nat) (status : String) (now : Nat)
  | delete (oid : Nat)

/-- The state after serving one request. -/
def applyOp (s : StoreState) : Op → StoreState
  | Op.create body now => (createOp s body now).2
  | Op.list st page limit => (listOp s st page limit).2
  | Op.getById oid => (getByIdOp s oid).2
  | Op.updateStatus oid st now => (updateStatusOp s oid st now).2
  | Op.delete oid => (deleteOp s oid).2

/-- The state reached by serving a sequence of requests from the
empty store. -/
def runOps (ops : List Op) : StoreState :=
  ops.foldl applyOp initState

/-! ### Correspondence between error collection and parsing -/

theorem reqStringErrs_nil_iff (p : List String) (v : Option JsonVal) :
    reqStringErrs p v = [] ↔ (parseReqString v).isSome := by
  match v with
  | none => simp [reqStringErrs, parseReqString]
  | some (JsonVal.jstr s) =>
      by_cases h : s = "" <;> simp [reqStringErrs, parseReqString, h]
  | some (JsonVal.jnum q) => simp [reqStringErrs, parseReqString]
  | some (JsonVal.jbool b) => simp [reqStringErrs, parseReqString]
  | some JsonVal.jnull => simp [reqStringErrs, parseReqString]
  | some (JsonVal.jarr xs) => simp [reqStringErrs, parseReqString]
  | some (JsonVal.jobj fs) => simp [reqStringErrs, parseReqString]

theorem quantityErrs_nil_iff (p : List String) (v : Option JsonVal) :
    quantityErrs p v = [] ↔ (parseQuantity v).isSome := by
  match v with
  | none => simp [quantityErrs, parseQuantity]
  | some (JsonVal.jnum q) =>
      by_cases hd : q.den = 1 <;> by_cases hq : q < 1
      · simp [quantityErrs, parseQuantity, hd, hq, not_le.2 hq]
      · simp [quantityErrs, parseQuantity, hd, hq, not_lt.1 hq]
      · simp [quantityErrs, parseQuantity, hd, hq, not_le.2 hq]
      · simp [quantityErrs, parseQuantity, hd, hq, not_lt.1 hq]
  | some (JsonVal.jstr s) => simp [quantityErrs, parseQuantity]
  | some (JsonVal.jbool b) => simp [quantityErrs, parseQuantity]
  | some JsonVal.jnull => simp [quantityErrs, parseQuantity]
  | some (JsonVal.jarr xs) => simp [quantityErrs, parseQuantity]
  | some (JsonVal.jobj fs) => simp [quantityErrs, parseQuantity]

theorem priceErrs_nil_iff (p : List String) (v : Option JsonVal) :
    priceErrs p v = [] ↔ (parsePrice v).isSome := by
  match v with
  | none => simp [priceErrs, parsePrice]
  | some (JsonVal.jnum q) =>
      by_cases hq : 0 < q <;> simp [priceErrs, parsePrice, hq]
  | some (JsonVal.jstr s) => simp [priceErrs, parsePrice]
  | some (JsonVal.jbool b) => simp [priceErrs, parsePrice]
  | some JsonVal.jnull => simp [priceErrs, parsePrice]
  | some (JsonVal.jarr xs) => simp [priceErrs, parsePrice]
  | some (JsonVal.jobj fs) => simp [priceErrs, parsePrice]

theorem itemErrs_nil_iff (p : List String) (v : JsonVal) :
    itemErrs p v = [] ↔ (parseItem v).isSome := by
  match v with
  | JsonVal.jobj fields =>
      simp only [itemErrs, parseItem, List.append_eq_nil,
        reqStringErrs_nil_iff, quantityErrs_nil_iff, priceErrs_nil_iff]
      cases h1 : parseReqString (getField fields "productId") <;>
        cases h2 : parseQuantity (getField fields "quantity") <;>
          cases h3 : parsePrice (getField fields "price") <;> simp
  | JsonVal.jstr s => simp [itemErrs, parseItem]
  | JsonVal.jnum q => simp [itemErrs, parseItem]
  | JsonVal.jbool b => simp [itemErrs, parseItem]
  | JsonVal.jnull => simp [itemErrs, parseItem]
  | JsonVal.jarr xs => simp [itemErrs, parseItem]

theorem itemListErrs_nil_iff (p : List String) (xs : List JsonVal) (i : Nat) :
    itemListErrs p i xs = [] ↔ (parseItemList xs).isSome := by
  induction xs generalizing i with
  | nil => simp [itemListErrs, parseItemList]
  | cons x xs ih =>
      simp only [itemListErrs, parseItemList, List.append_eq_nil,
        itemErrs_nil_iff, ih]
      cases h1 : parseItem x <;> cases h2 : parseItemList xs <;> simp

theorem itemsErrs_nil_iff (p : List String) (v : Option JsonVal) :
    itemsErrs p v = [] ↔ (parseItems v).isSome := by
  match v with
  | none => simp [itemsErrs, parseItems]
  | some (JsonVal.jarr xs) =>
      simp only [itemsErrs, parseItems, List.append_eq_nil,
        itemListErrs_nil_iff]
      cases h : parseItemList xs <;> by_cases hl : xs.length < 1 <;>
        simp [h, hl]
  | some (JsonVal.jstr s) => simp [itemsErrs, parseItems]
  | some (JsonVal.jnum q) => simp [itemsErrs, parseItems]
  | some (JsonVal.jbool b) => simp [itemsErrs, parseItems]
  | some JsonVal.jnull => simp [itemsErrs, parseItems]
  | some (JsonVal.jobj fs) => simp [itemsErrs, parseItems]

theorem addressErrs_nil_iff (p : List String) (v : Option JsonVal) :
    addressErrs p v = [] ↔ (parseAddress v).isSome := by
  match v with
  | none => simp [addressErrs, parseAddress]
  | some (JsonVal.jobj fields) =>
      simp only [addressErrs, parseAddress, List.append_eq_nil,
        reqStringErrs_nil_iff]
      cases h1 : parseReqString (getField fields "street") <;>
        cases h2 : parseReqString (getField fields "city") <;>
          cases h3 : parseReqString (getField fields "zipCode") <;>
            cases h4 : parseReqString (getField fields "country") <;> simp
  | some (JsonVal.jstr s) => simp [addressErrs, parseAddress]
  | some (JsonVal.jnum q) => simp [addressErrs, parseAddress]
  | some (JsonVal.jbool b) => simp [addressErrs, parseAddress]
  | some JsonVal.jnull => simp [addressErrs, parseAddress]
  | some (JsonVal.jarr xs) => simp [addressErrs, parseAddress]

theorem parseOrder_isSome_iff (v : JsonVal) :
    (parseOrder v).isSome ↔ orderSchemaErrors v = [] := by
  match v with
  | JsonVal.jobj fields =>
      simp only [parseOrder, orderSchemaErrors, List.append_eq_nil,
        reqStringErrs_nil_iff, itemsErrs_nil_iff, addressErrs_nil_iff]
      cases h1 : parseReqString (getField fields "customerId") <;>
        cases h2 : parseItems (getField fields "items") <;>
          cases h3 : parseAddress (getField fields "shippingAddress") <;> simp
  | JsonVal.jstr s => simp [parseOrder, orderSchemaErrors]
  | JsonVal.jnum q => simp [parseOrder, orderSchemaErrors]
  | JsonVal.jbool b => simp [parseOrder, orderSchemaErrors]
  | JsonVal.jnull => simp [parseOrder, orderSchemaErrors]
  | JsonVal.jarr xs => simp [parseOrder, orderSchemaErrors]

theorem parseOrder_eq_none_iff (v : JsonVal) :
    parseOrder v = none ↔ orderSchemaErrors v ≠ [] := by
  rw [← Option.not_isSome_iff_eq_none, parseOrder_isSome_iff]

/-! ### Helper lemmas about list operations -/

theorem find?_append_of_none {p : α → Bool} {l₁ l₂ : List α}
    (h : ∀ x ∈ l₁, p x = false) :
    (l₁ ++ l₂).find? p = l₂.find? p := by
  induction l₁ with
  | nil => rfl
  | cons x xs ih =>
      have hx := h x (List.mem_cons_self x xs)
      simp only [List.cons_append, List.find?, hx]
      exact ih fun y hy => h y (List.mem_cons_of_mem x hy)

theorem findIndex_eq_none_iff {p : α → Bool} {l : List α} :
    findIndex p l = none ↔ ∀ x ∈ l, p x = false := by
  induction l with
  | nil => simp [findIndex]
  | cons x xs ih =>
      by_cases hx : p x <;> simp [findIndex, hx, ih]

theorem findIndex_eq_some {p : α → Bool} {l : List α} {i : Nat}
    (h : findIndex p l = some i) :
    ∃ x, l[i]? = some x ∧ p x = true ∧
      ∀ j, j < i → ∀ y, l[j]? = some y → p y = false := by
  induction l generalizing i with
  | nil => simp [findIndex] at h
  | cons x xs ih =>
      by_cases hx : p x
      · simp only [findIndex, hx, if_pos] at h
        cases h
        exact ⟨x, by simp, hx, fun j hj => by omega⟩
      · simp only [findIndex, hx, if_neg, Bool.false_eq_true,
          not_false_iff, Option.map_eq_some'] at h
        obtain ⟨i0, hi0, rfl⟩ := h
        obtain ⟨y, hy, hpy, hbefore⟩ := ih hi0
        refine ⟨y, by simpa using hy, hpy, ?_⟩
        intro j hj z hz
        match j with
        | 0 => simp at hz; subst hz; simpa using hx
        | j + 1 =>
            exact hbefore j (by omega) z (by simpa using hz)

theorem findIndex_mem_of_some {p : α → Bool} {l : List α} {i : Nat}
    (h : findIndex p l = some i) :
    ∃ x, l[i]? = some x ∧ p x = true := by
  obtain ⟨x, hx, hpx, _⟩ := findIndex_eq_some h
  exact ⟨x, hx, hpx⟩

theorem mem_eraseIdx_of_mem {l : List α} {i : Nat} {x : α}
    (h : x ∈ l.eraseIdx i) : x ∈ l :=
  (List.eraseIdx_sublist l i).mem h

theorem map_set_same_id (l : List Order) (i : Nat) (u o : Order)
    (hget : l[i]? = some o) (hid : u.id = o.id) :
    (l.set i u).map Order.id = l.map Order.id := by
  induction l generalizing i with
  | nil => simp at hget
  | cons y ys ih =>
      match i with
      | 0 =>
          simp at hget
          subst hget
          simp [List.set, hid]
      | i + 1 =>
          simp only [List.getElem?_cons_succ] at hget
          simp [List.set, ih i hget]

/-! ### Store invariants over reachable states -/

/-- Every stored order carries a status from the fixed set. -/
def statusInv (s : StoreState) : Prop :=
  ∀ o ∈ s.orders, o.status ∈ validStatuses

/-- All stored ids are below the fresh-id counter and pairwise
distinct (the uuid-uniqueness assumption, discharged by the counter
model). -/
def idInv (s : StoreState) : Prop :=
  (∀ o ∈ s.orders, o.id < s.nextId) ∧ (s.orders.map Order.id).Nodup

/-- The combined store invariant. -/
def storeInv (s : StoreState) : Prop :=
  statusInv s ∧ idInv s

theorem storeInv_init : storeInv initState := by
  refine ⟨?_, ?_, ?_⟩ <;> simp [initState, statusInv, idInv]

theorem storeInv_create (s : StoreState) (body : JsonVal) (now : Nat)
    (h : storeInv s) : storeInv (createOp s body now).2 := by
  obtain ⟨hst, hlt, hnd⟩ := h
  unfold createOp
  cases hv : validateOrder body with
  | error msgs => exact ⟨hst, hlt, hnd⟩
  | ok value =>
      refine ⟨?_, ?_, ?_⟩
      · intro o ho
        simp only [List.mem_append, List.mem_singleton] at ho
        cases ho with
        | inl hmem => exact hst o hmem
        | inr heq => subst heq; simp [newOrder, validStatuses]
      · intro o ho
        simp only [List.mem_append, List.mem_singleton] at ho
        cases ho with
        | inl hmem => exact Nat.lt_succ_of_lt (hlt o hmem)
        | inr heq => subst heq; exact Nat.lt_succ_self _
      · rw [List.map_append, List.nodup_append]
        refine ⟨hnd, List.nodup_singleton _, ?_⟩
        intro a ha hb
        simp only [List.map_cons, List.map_nil, List.mem_singleton] at hb
        subst hb
        obtain ⟨o, ho, hoid⟩ := List.mem_map.1 ha
        exact absurd (hoid ▸ hlt o ho) (lt_irrefl _)

theorem getByIdOp_state_eq (s : StoreState) (oid : Nat) :
    (getByIdOp s oid).2 = s := by
  cases hf : s.orders.find? (fun o => o.id == oid) <;>
    simp [getByIdOp, hf]

theorem listOp_state_eq (s : StoreState) (status : Option String)
    (page limit : Nat) : (listOp s status page limit).2 = s := rfl

theorem storeInv_updateStatus (s : StoreState) (oid : Nat) (st : String)
    (now : Nat) (h : storeInv s) : storeInv (updateStatusOp s oid st now).2 := by
  obtain ⟨hst, hlt, hnd⟩ := h
  by_cases hvalid : validStatuses.contains st
  · cases hidx : findIndex (fun o => o.id == oid) s.orders with
    | none =>
        simp only [updateStatusOp, hvalid, if_pos, hidx]
        exact ⟨hst, hlt, hnd⟩
    | some i =>
        cases hget : s.orders[i]? with
        | none =>
            simp only [updateStatusOp, hvalid, if_pos, hidx, hget]
            exact ⟨hst, hlt, hnd⟩
        | some o =>
            simp only [updateStatusOp, hvalid, if_pos, hidx, hget]
            have hmem : o ∈ s.orders := by
              obtain ⟨hi, rfl⟩ := List.getElem?_eq_some.1 hget
              exact List.getElem_mem _
            refine ⟨?_, ?_, ?_⟩
            · intro o' ho'
              rcases List.mem_or_eq_of_mem_set ho' with hmem' | heq
              · exact hst o' hmem'
              · subst heq
                simpa using List.elem_iff.1 hvalid
            · intro o' ho'
              rcases List.mem_or_eq_of_mem_set ho' with hmem' | heq
              · exact hlt o' hmem'
              · subst heq; exact hlt o hmem
            · dsimp only
              rw [map_set_same_id s.orders i
                { o with status := st, updatedAt := now } o hget rfl]
              exact hnd
  · simp only [updateStatusOp, hvalid, if_neg, Bool.false_eq_true, not_false_iff]
    exact ⟨hst, hlt, hnd⟩

theorem storeInv_delete (s : StoreState) (oid : Nat)
    (h : storeInv s) : storeInv (deleteOp s oid).2 := by
  obtain ⟨hst, hlt, hnd⟩ := h
  cases hidx : findIndex (fun o => o.id == oid) s.orders with
  | none =>
      simp only [deleteOp, hidx]
      exact ⟨hst, hlt, hnd⟩
  | some i =>
      cases hget : s.orders[i]? with
      | none =>
          simp only [deleteOp, hidx, hget]
          exact ⟨hst, hlt, hnd⟩
      | some o =>
          simp only [deleteOp, hidx, hget]
          refine ⟨?_, ?_, ?_⟩
          · intro o' ho'
            exact hst o' (mem_eraseIdx_of_mem ho')
          · intro o' ho'
            exact hlt o' (mem_eraseIdx_of_mem ho')
          · exact hnd.sublist ((List.eraseIdx_sublist _ i).map Order.id)

theorem storeInv_applyOp (s : StoreState) (op : Op)
    (h : storeInv s) : storeInv (applyOp s op) := by
  cases op with
  | create body now => exact storeInv_create s body now h
  | list st page limit => exact h
  | getById oid =>
      show storeInv (getByIdOp s oid).2
      rw [getByIdOp_state_eq]
      exact h
  | updateStatus oid st now => exact storeInv_updateStatus s oid st now h
  | delete oid => exact storeInv_delete s oid h

theorem storeInv_foldl (ops : List Op) (s : StoreState)
    (h : storeInv s) : storeInv (ops.foldl applyOp s) := by
  induction ops generalizing s with
  | nil => exact h
  | cons op ops ih => exact ih _ (storeInv_applyOp s op h)

theorem storeInv_runOps (ops : List Op) : storeInv (runOps ops) :=
  storeInv_foldl ops initState storeInv_init

/-! ### Concrete values used in witnesses and counterexamples -/

/-- The test suite's `validOrder` request body. -/
def sampleBody : JsonVal :=
  JsonVal.jobj
    [("customerId", JsonVal.jstr "customer-123"),
     ("items", JsonVal.jarr
       [JsonVal.jobj
         [("productId", JsonVal.jstr "product-1"),
          ("quantity", JsonVal.jnum 2),
          ("price", JsonVal.jnum (2999 / 100))]]),
     ("shippingAddress", JsonVal.jobj
       [("street", JsonVal.jstr "123 Main St"),
        ("city", JsonVal.jstr "New York"),
        ("zipCode", JsonVal.jstr "10001"),
        ("country", JsonVal.jstr "USA")])]

/-- The payload `sampleBody` parses to. -/
def sampleInput : OrderInput :=
  ⟨"customer-123", [⟨"product-1", 2, 2999 / 100⟩],
   ⟨"123 Main St", "New York", "10001", "USA"⟩⟩

/-- The test suite's `invalidOrder` body: only `customerId`. -/
def invalidBody : JsonVal :=
  JsonVal.jobj [("customerId", JsonVal.jstr "customer-123")]

/-- The test suite's empty-items body. -/
def emptyItemsBody : JsonVal :=
  JsonVal.jobj
    [("customerId", JsonVal.jstr "customer-123"),
     ("items", JsonVal.jarr []),
     ("shippingAddress", JsonVal.jobj
       [("street", JsonVal.jstr "123 Main St"),
        ("city", JsonVal.jstr "New York"),
        ("zipCode", JsonVal.jstr "10001"),
        ("country", JsonVal.jstr "USA")])]

/-- The order `createOp initState sampleBody 0` stores. -/
def sampleOrder : Order :=
  ⟨0, "customer-123", [⟨"product-1", 2, 2999 / 100⟩],
   ⟨"123 Main St", "New York", "10001", "USA"⟩, "pending", 5998 / 100, 0, 0⟩

/-- A second stored order, with a different id and status. -/
def sampleOrder2 : Order :=
  { sampleOrder with id := 1, customerId := "customer-2", status := "shipped" }

/-- A store holding exactly `sampleOrder`. -/
def oneOrderState : StoreState := ⟨[sampleOrder], 1⟩

/-- A store holding `sampleOrder` then `sampleOrder2`. -/
def twoOrderState : StoreState := ⟨[sampleOrder, sampleOrder2], 2⟩

/-- Evaluating the Joi schema on the sample body. -/
theorem validateOrder_sampleBody :
    validateOrder sampleBody = Except.ok sampleInput := by
  simp +decide [validateOrder, parseOrder, sampleBody, sampleInput, getField,
    parseReqString, parseItems, parseItemList, parseItem, parseQuantity,
    parsePrice, parseAddress]

/-- Creating from the sample body on the empty store yields the
sample order and the one-order store. -/
theorem createOp_sample :
    createOp initState sampleBody 0 = (Except.ok sampleOrder, oneOrderState) := by
  simp [createOp, validateOrder_sampleBody, initState, oneOrderState,
    newOrder, sampleOrder, sampleInput, orderTotal]
  norm_num

/-- Serving the single sample-create request reaches the one-order
store. -/
theorem runOps_create_sample :
    runOps [Op.create sampleBody 0] = oneOrderState := by
  simp [runOps, applyOp, createOp_sample]

/-! ### Claim theorems -/

/-- C10: for every store state and all query arguments, the read
operations `list` and `getById` leave the order collection exactly
unchanged, whether they succeed or fail. -/
theorem C10_reads_leave_store_unchanged (s : StoreState)
    (status : Option String) (page limit oid : Nat) :
    (listOp s status page limit).2 = s ∧ (getByIdOp s oid).2 = s :=
  ⟨listOp_state_eq s status page limit, getByIdOp_state_eq s oid⟩

/-- C9: in every state reachable from the empty store by any request
sequence, every stored order's status belongs to the fixed set
`validStatuses`. -/
theorem C9_reachable_status_valid (ops : List Op) :
    ∀ o ∈ (runOps ops).orders, o.status ∈ validStatuses :=
  fun o ho => (storeInv_runOps ops).1 o ho

/-- Witness for C9: a concrete reachable state with a member order. -/
theorem C9_reachable_status_valid_witness :
    sampleOrder ∈ (runOps [Op.create sampleBody 0]).orders ∧
    sampleOrder.status ∈ validStatuses :=
  ⟨by rw [runOps_create_sample]; simp [oneOrderState],
   C9_reachable_status_valid [Op.create sampleBody 0] sampleOrder
     (by rw [runOps_create_sample]; simp [oneOrderState])⟩

/-- C3: `updateStatus` checks the new status against the fixed set
before looking the order up: an invalid status yields the
ValidationError carrying the offending value and the full valid set
regardless of whether the id exists, while a valid status against an
absent id yields NotFoundError. -/
theorem C3_validity_checked_before_existence (s : StoreState) (oid : Nat)
    (st : String) (now : Nat) :
    (st ∉ validStatuses →
      (updateStatusOp s oid st now).1
        = Except.error (ReqError.invalidStatus st validStatuses)) ∧
    (st ∈ validStatuses → (∀ o ∈ s.orders, o.id ≠ oid) →
      (updateStatusOp s oid st now).1 = Except.error ReqError.notFound) := by
  constructor
  · intro hst
    simp [updateStatusOp, hst]
  · intro hst habs
    have hidx : findIndex (fun o => o.id == oid) s.orders = none := by
      rw [findIndex_eq_none_iff]
      intro x hx
      exact beq_eq_false_iff_ne.2 (habs x hx)
    simp [updateStatusOp, hst, hidx]

/-- Witness for C3 at concrete inputs (states with and without the
targeted id, an unlisted and a listed status). -/
theorem C3_validity_checked_before_existence_witness :
    ((updateStatusOp oneOrderState 0 "bogus" 7).1
      = Except.error (ReqError.invalidStatus "bogus" validStatuses)) ∧
    ((updateStatusOp oneOrderState 99 "shipped" 7).1
      = Except.error ReqError.notFound) :=
  ⟨(C3_validity_checked_before_existence oneOrderState 0 "bogus" 7).1
      (by decide),
   (C3_validity_checked_before_existence oneOrderState 99 "shipped" 7).2
      (by decide) (by decide)⟩

/-- C2: for positive integer `page` and `limit`, `list` returns the
slice of the filtered collection from index `(page-1)*limit` up to
`page*limit`, clipped to its bounds; a page past the end yields the
empty slice; the pagination metadata echoes `page` and `limit`,
reports the filtered count as `total`, and `pages = ceil(total /
limit)`. -/
theorem C2_list_pagination (s : StoreState) (status : Option String)
    (page limit : Nat) (hp : 1 ≤ page) (hl : 1 ≤ limit) :
    ((listOp s status page limit).1.1
        = ((filterByStatus s.orders status).drop ((page - 1) * limit)).take
            (page * limit - (page - 1) * limit)) ∧
    ((filterByStatus s.orders status).length ≤ (page - 1) * limit →
      (listOp s status page limit).1.1 = []) ∧
    ((listOp s status page limit).1.2.page = page) ∧
    ((listOp s status page limit).1.2.limit = limit) ∧
    ((listOp s status page limit).1.2.total
        = (filterByStatus s.orders status).length) ∧
    ((listOp s status page limit).1.2.pages
        = Nat.ceil (((filterByStatus s.orders status).length : ℚ)
            / (limit : ℚ))) := by
  refine ⟨rfl, ?_, rfl, rfl, rfl, rfl⟩
  intro hle
  show jsSlice (filterByStatus s.orders status) ((page - 1) * limit)
      (page * limit) = []
  unfold jsSlice
  rw [List.drop_eq_nil_of_le hle, List.take_nil]

/-- Witness for C2: page 2 with limit 1 on a two-order store returns
exactly the second order. -/
theorem C2_list_pagination_witness :
    ((listOp twoOrderState none 2 1).1.1
        = ((filterByStatus twoOrderState.orders none).drop ((2 - 1) * 1)).take
            (2 * 1 - (2 - 1) * 1)) ∧
    ((filterByStatus twoOrderState.orders none).length ≤ (2 - 1) * 1 →
      (listOp twoOrderState none 2 1).1.1 = []) ∧
    ((listOp twoOrderState none 2 1).1.2.page = 2) ∧
    ((listOp twoOrderState none 2 1).1.2.limit = 1) ∧
    ((listOp twoOrderState none 2 1).1.2.total
        = (filterByStatus twoOrderState.orders none).length) ∧
    ((listOp twoOrderState none 2 1).1.2.pages
        = Nat.ceil (((filterByStatus twoOrderState.orders none).length : ℚ)
            / ((1 : Nat) : ℚ))) :=
  C2_list_pagination twoOrderState none 2 1 (by decide) (by decide)

/-- C5 is false as stated: the filter value may be the empty string,
which `if (status)` treats as falsy, so the code filters nothing —
the one-order store yields an order whose status is not the empty
string, and `total` counts all orders instead of the zero
empty-status ones. -/
theorem C5_counterexample :
    sampleOrder.status ≠ "" ∧
    (listOp oneOrderState (some "") 1 10).1.1 = [sampleOrder] ∧
    (listOp oneOrderState (some "") 1 10).1.2.total = 1 := by
  refine ⟨by decide, ?_, ?_⟩ <;>
    simp [listOp, filterByStatus, oneOrderState, jsSlice]

/-- C5 amended: for every NON-EMPTY status filter value, list
returns only orders whose stored status exactly equals that value
(case-sensitive `===`), with `total` the count of such orders; an
absent filter — and likewise the empty-string value, which JS
truthiness treats as absent — leaves the collection unfiltered, in
insertion order. -/
theorem C5_filter_exact (s : StoreState) (st : String) (page limit : Nat)
    (hne : st ≠ "") :
    (∀ o ∈ (listOp s (some st) page limit).1.1, o.status = st) ∧
    ((listOp s (some st) page limit).1.2.total
        = (s.orders.filter (fun o => o.status == st)).length) ∧
    (filterByStatus s.orders none = s.orders) ∧
    (filterByStatus s.orders (some "") = s.orders) := by
  refine ⟨?_, ?_, rfl, by simp [filterByStatus]⟩
  · intro o ho
    have h1 : o ∈ filterByStatus s.orders (some st) :=
      List.mem_of_mem_drop (List.mem_of_mem_take ho)
    simp only [filterByStatus, hne, if_neg, if_false] at h1
    exact eq_of_beq (List.mem_filter.1 h1).2
  · show (filterByStatus s.orders (some st)).length = _
    simp [filterByStatus, hne]

/-- Witness for C5 amended: filtering the two-order store by
`shipped`. -/
theorem C5_filter_exact_witness :
    (∀ o ∈ (listOp twoOrderState (some "shipped") 1 10).1.1,
      o.status = "shipped") ∧
    ((listOp twoOrderState (some "shipped") 1 10).1.2.total
        = (twoOrderState.orders.filter
            (fun o => o.status == "shipped")).length) ∧
    (filterByStatus twoOrderState.orders none = twoOrderState.orders) ∧
    (filterByStatus twoOrderState.orders (some "") = twoOrderState.orders) :=
  C5_filter_exact twoOrderState "shipped" 1 10 (by decide)

/-- C1 is false as stated: the empty request body violates three
required-field constraints, yet the returned ValidationError carries
only the first message (Joi's default `abortEarly: true`), not one
message per violated constraint. -/
theorem C1_counterexample :
    orderSchemaErrors (JsonVal.jobj [])
      = [VMsg.missing ["customerId"], VMsg.missing ["items"],
         VMsg.missing ["shippingAddress"]] ∧
    validateOrder (JsonVal.jobj [])
      = Except.error [VMsg.missing ["customerId"]] := by
  constructor <;> decide

/-- C1 amended: every schema-violating creation input fails with a
ValidationError, but its detail list carries exactly one message —
the first violated constraint in schema traversal order — rather
than one message per violation. -/
theorem C1_validation_reports_first (s : StoreState) (body : JsonVal)
    (now : Nat) (h : orderSchemaErrors body ≠ []) :
    (createOp s body now).1
        = Except.error ((orderSchemaErrors body).take 1) ∧
    ((orderSchemaErrors body).take 1).length = 1 := by
  have hp : parseOrder body = none := (parseOrder_eq_none_iff body).2 h
  constructor
  · simp [createOp, validateOrder, hp]
  · cases he : orderSchemaErrors body with
    | nil => exact absurd he h
    | cons a l => simp

/-- Witness for C1 amended at the test suite's invalid body. -/
theorem C1_validation_reports_first_witness :
    orderSchemaErrors invalidBody ≠ [] ∧
    ((createOp initState invalidBody 0).1
        = Except.error ((orderSchemaErrors invalidBody).take 1) ∧
     ((orderSchemaErrors invalidBody).take 1).length = 1) :=
  ⟨by decide, C1_validation_reports_first initState invalidBody 0 (by decide)⟩

/-- C6: create on a schema-violating input returns the
ValidationError and leaves the store — every order in the collection
— completely unchanged. -/
theorem C6_invalid_create_no_mutation (s : StoreState) (body : JsonVal)
    (now : Nat) (h : orderSchemaErrors body ≠ []) :
    (createOp s body now).1
        = Except.error ((orderSchemaErrors body).take 1) ∧
    (createOp s body now).2 = s := by
  have hp : parseOrder body = none := (parseOrder_eq_none_iff body).2 h
  constructor <;> simp [createOp, validateOrder, hp]

/-- Witness for C6 at the zero-items body against a non-empty
store. -/
theorem C6_invalid_create_no_mutation_witness :
    orderSchemaErrors emptyItemsBody ≠ [] ∧
    ((createOp oneOrderState emptyItemsBody 9).1
        = Except.error ((orderSchemaErrors emptyItemsBody).take 1) ∧
     (createOp oneOrderState emptyItemsBody 9).2 = oneOrderState) :=
  ⟨by decide,
   C6_invalid_create_no_mutation oneOrderState emptyItemsBody 9 (by decide)⟩

theorem orderTotal_foldl (items : List Item) (a : ℚ) :
    items.foldl (fun sum item => sum + item.price * (item.quantity : ℚ)) a
      = a + (items.map fun it => it.price * (it.quantity : ℚ)).sum := by
  induction items generalizing a with
  | nil => simp
  | cons x xs ih => simp [ih, add_assoc]

theorem orderTotal_eq_sum (items : List Item) :
    orderTotal items
      = (items.map fun it => it.price * (it.quantity : ℚ)).sum := by
  simp [orderTotal, orderTotal_foldl]

/-- C4: creating from a valid input succeeds with an order whose id
is fresh (no live order shares it), whose status is `pending`, whose
total is exactly the sum of price times quantity over the input
items, whose two timestamps both equal the creation instant, and
which is appended to the collection and immediately visible to
`getById` and `list`. -/
theorem C4_create_success (s : StoreState) (body : JsonVal) (now : Nat)
    (value : OrderInput) (hinv : idInv s)
    (hok : validateOrder body = Except.ok value) :
    ((createOp s body now).1 = Except.ok (newOrder s value now)) ∧
    ((newOrder s value now).status = "pending") ∧
    ((newOrder s value now).total
        = (value.items.map fun it => it.price * (it.quantity : ℚ)).sum) ∧
    ((newOrder s value now).createdAt = now) ∧
    ((newOrder s value now).updatedAt = now) ∧
    ((newOrder s value now).createdAt = (newOrder s value now).updatedAt) ∧
    (∀ o' ∈ s.orders, o'.id ≠ (newOrder s value now).id) ∧
    ((createOp s body now).2.orders = s.orders ++ [newOrder s value now]) ∧
    ((getByIdOp (createOp s body now).2 (newOrder s value now).id).1
        = Except.ok (newOrder s value now)) ∧
    (newOrder s value now
        ∈ (listOp (createOp s body now).2 none 1 (s.orders.length + 1)).1.1) := by
  have hstate : (createOp s body now).2
      = ⟨s.orders ++ [newOrder s value now], s.nextId + 1⟩ := by
    simp [createOp, hok]
  have hfresh : ∀ o' ∈ s.orders, o'.id ≠ (newOrder s value now).id :=
    fun o' ho' => Nat.ne_of_lt (hinv.1 o' ho')
  have hfind : (s.orders ++ [newOrder s value now]).find?
      (fun x => x.id == (newOrder s value now).id)
      = some (newOrder s value now) := by
    rw [find?_append_of_none
      (fun x hx => beq_eq_false_iff_ne.2 (hfresh x hx))]
    simp [List.find?]
  refine ⟨by simp [createOp, hok], rfl, orderTotal_eq_sum value.items,
    rfl, rfl, rfl, hfresh, by rw [hstate], ?_, ?_⟩
  · rw [hstate]
    simp only [getByIdOp, hfind]
  · rw [hstate]
    show newOrder s value now
        ∈ jsSlice (filterByStatus (s.orders ++ [newOrder s value now]) none)
            ((1 - 1) * (s.orders.length + 1)) (1 * (s.orders.length + 1))
    simp only [filterByStatus, jsSlice, Nat.sub_self, Nat.zero_mul,
      Nat.one_mul, List.drop_zero, Nat.sub_zero]
    rw [List.take_of_length_le (by simp)]
    simp

/-- Witness for C4 at the sample body on the empty store. -/
theorem C4_create_success_witness :
    idInv initState ∧
    (((createOp initState sampleBody 0).1
        = Except.ok (newOrder initState sampleInput 0)) ∧
     ((newOrder initState sampleInput 0).status = "pending") ∧
     ((newOrder initState sampleInput 0).total
        = (sampleInput.items.map fun it => it.price * (it.quantity : ℚ)).sum) ∧
     ((newOrder initState sampleInput 0).createdAt = 0) ∧
     ((newOrder initState sampleInput 0).updatedAt = 0) ∧
     ((newOrder initState sampleInput 0).createdAt
        = (newOrder initState sampleInput 0).updatedAt) ∧
     (∀ o' ∈ initState.orders, o'.id ≠ (newOrder initState sampleInput 0).id) ∧
     ((createOp initState sampleBody 0).2.orders
        = initState.orders ++ [newOrder initState sampleInput 0]) ∧
     ((getByIdOp (createOp initState sampleBody 0).2
          (newOrder initState sampleInput 0).id).1
        = Except.ok (newOrder initState sampleInput 0)) ∧
     (newOrder initState sampleInput 0
        ∈ (listOp (createOp initState sampleBody 0).2 none 1
            (initState.orders.length + 1)).1.1)) :=
  ⟨⟨by simp [initState], by simp [initState]⟩,
   C4_create_success initState sampleBody 0 sampleInput
     ⟨by simp [initState], by simp [initState]⟩ validateOrder_sampleBody⟩

theorem delete_core (l : List Order) (oid : Nat) (o : Order)
    (hnd : (l.map Order.id).Nodup) (ho : o ∈ l) (hid : o.id = oid) :
    ∃ i, findIndex (fun x => x.id == oid) l = some i ∧ l[i]? = some o ∧
      ∀ o' ∈ l.eraseIdx i, o'.id ≠ oid := by
  induction l with
  | nil => cases ho
  | cons x xs ih =>
      rw [List.map_cons, List.nodup_cons] at hnd
      by_cases hx : x.id = oid
      · have hxo : x = o := by
          cases List.mem_cons.1 ho with
          | inl h => exact h.symm
          | inr h =>
              exfalso
              apply hnd.1
              rw [hx, ← hid]
              exact List.mem_map_of_mem Order.id h
        refine ⟨0, by simp [findIndex, hx], by simp [hxo], ?_⟩
        intro o' ho' hc
        rw [List.eraseIdx_cons_zero] at ho'
        exact hnd.1 (hx ▸ hc ▸ List.mem_map_of_mem Order.id ho')
      · have ho' : o ∈ xs := by
          cases List.mem_cons.1 ho with
          | inl h => exact absurd (h ▸ hid) hx
          | inr h => exact h
        obtain ⟨i, hfi, hgi, herase⟩ := ih hnd.2 ho'
        refine ⟨i + 1, ?_, by simpa using hgi, ?_⟩
        · simp [findIndex, hx, hfi]
        · intro y hy
          rw [List.eraseIdx_cons_succ] at hy
          cases List.mem_cons.1 hy with
          | inl h => exact h ▸ hx
          | inr h => exact herase y h

/-- C7: deleting a present id succeeds, returns the removed order as
confirmation, and removes it irrecoverably: no remaining order
carries the id, so a second delete and any subsequent getById of the
id fail with NotFoundError. -/
theorem C7_delete_irrecoverable (s : StoreState) (oid : Nat) (o : Order)
    (hnd : (s.orders.map Order.id).Nodup)
    (ho : o ∈ s.orders) (hid : o.id = oid) :
    ((deleteOp s oid).1 = Except.ok o) ∧
    (∀ o' ∈ (deleteOp s oid).2.orders, o'.id ≠ oid) ∧
    ((deleteOp (deleteOp s oid).2 oid).1 = Except.error ReqError.notFound) ∧
    ((getByIdOp (deleteOp s oid).2 oid).1 = Except.error ReqError.notFound) := by
  obtain ⟨i, hfi, hgi, herase⟩ := delete_core s.orders oid o hnd ho hid
  have hstate : (deleteOp s oid).2 = ⟨s.orders.eraseIdx i, s.nextId⟩ := by
    simp [deleteOp, hfi, hgi]
  have hgone : ∀ o' ∈ (deleteOp s oid).2.orders, o'.id ≠ oid := by
    rw [hstate]; exact herase
  refine ⟨by simp [deleteOp, hfi, hgi], hgone, ?_, ?_⟩
  · have hidx2 : findIndex (fun x => x.id == oid) (deleteOp s oid).2.orders
        = none := by
      rw [findIndex_eq_none_iff]
      exact fun x hx => beq_eq_false_iff_ne.2 (hgone x hx)
    set t := (deleteOp s oid).2 with ht
    simp [deleteOp, hidx2]
  · have hfind2 : (deleteOp s oid).2.orders.find? (fun x => x.id == oid)
        = none :=
      List.find?_eq_none.2 fun x hx => by
        simpa using hgone x hx
    simp [getByIdOp, hfind2]

/-- Witness for C7: deleting the one stored order. -/
theorem C7_delete_irrecoverable_witness :
    ((deleteOp oneOrderState 0).1 = Except.ok sampleOrder) ∧
    (∀ o' ∈ (deleteOp oneOrderState 0).2.orders, o'.id ≠ 0) ∧
    ((deleteOp (deleteOp oneOrderState 0).2 0).1
        = Except.error ReqError.notFound) ∧
    ((getByIdOp (deleteOp oneOrderState 0).2 0).1
        = Except.error ReqError.notFound) :=
  C7_delete_irrecoverable oneOrderState 0 sampleOrder
    (by simp [oneOrderState]) (by simp [oneOrderState]) (by decide)

/-- C8: a successful status update replaces only the `status` and
`updatedAt` fields of the targeted order — its id, customerId,
items, shippingAddress, total and createdAt are unchanged — leaves
every other position of the collection and the id counter untouched,
and returns the updated order. -/
theorem C8_updateStatus_frame (s : StoreState) (oid : Nat) (st : String)
    (now : Nat) (i : Nat) (o : Order)
    (hvalid : st ∈ validStatuses)
    (hidx : findIndex (fun x => x.id == oid) s.orders = some i)
    (hget : s.orders[i]? = some o) :
    ((updateStatusOp s oid st now).1
        = Except.ok { o with status := st, updatedAt := now }) ∧
    ((updateStatusOp s oid st now).2.orders
        = s.orders.set i { o with status := st, updatedAt := now }) ∧
    (Order.status { o with status := st, updatedAt := now } = st) ∧
    (Order.updatedAt { o with status := st, updatedAt := now } = now) ∧
    (Order.id { o with status := st, updatedAt := now } = o.id) ∧
    (Order.customerId { o with status := st, updatedAt := now }
        = o.customerId) ∧
    (Order.items { o with status := st, updatedAt := now } = o.items) ∧
    (Order.shippingAddress { o with status := st, updatedAt := now }
        = o.shippingAddress) ∧
    (Order.total { o with status := st, updatedAt := now } = o.total) ∧
    (Order.createdAt { o with status := st, updatedAt := now }
        = o.createdAt) ∧
    ((updateStatusOp s oid st now).2.nextId = s.nextId) ∧
    (∀ j, j ≠ i →
      (updateStatusOp s oid st now).2.orders[j]? = s.orders[j]?) := by
  refine ⟨?_, ?_, rfl, rfl, rfl, rfl, rfl, rfl, rfl, rfl, ?_, ?_⟩
  · simp [updateStatusOp, hvalid, hidx, hget]
  · simp [updateStatusOp, hvalid, hidx, hget]
  · simp [updateStatusOp, hvalid, hidx, hget]
  · intro j hj
    have : (updateStatusOp s oid st now).2.orders
        = s.orders.set i { o with status := st, updatedAt := now } := by
      simp [updateStatusOp, hvalid, hidx, hget]
    rw [this]
    exact List.getElem?_set_ne (Ne.symm hj)

/-- Witness for C8: shipping the one stored order. -/
theorem C8_updateStatus_frame_witness :
    ((updateStatusOp oneOrderState 0 "shipped" 7).1
        = Except.ok { sampleOrder with status := "shipped", updatedAt := 7 }) ∧
    ((updateStatusOp oneOrderState 0 "shipped" 7).2.orders
        = oneOrderState.orders.set 0
            { sampleOrder with status := "shipped", updatedAt := 7 }) ∧
    (Order.status { sampleOrder with status := "shipped", updatedAt := 7 }
        = "shipped") ∧
    (Order.updatedAt { sampleOrder with status := "shipped", updatedAt := 7 }
        = 7) ∧
    (Order.id { sampleOrder with status := "shipped", updatedAt := 7 }
        = sampleOrder.id) ∧
    (Order.customerId { sampleOrder with status := "shipped", updatedAt := 7 }
        = sampleOrder.customerId) ∧
    (Order.items { sampleOrder with status := "shipped", updatedAt := 7 }
        = sampleOrder.items) ∧
    (Order.shippingAddress
        { sampleOrder with status := "shipped", updatedAt := 7 }
        = sampleOrder.shippingAddress) ∧
    (Order.total { sampleOrder with status := "shipped", updatedAt := 7 }
        = sampleOrder.total) ∧
    (Order.createdAt { sampleOrder with status := "shipped", updatedAt := 7 }
        = sampleOrder.createdAt) ∧
    ((updateStatusOp oneOrderState 0 "shipped" 7).2.nextId
        = oneOrderState.nextId) ∧
    (∀ j, j ≠ 0 →
      (updateStatusOp oneOrderState 0 "shipped" 7).2.orders[j]?
        = oneOrderState.orders[j]?) :=
  C8_updateStatus_frame oneOrderState 0 "shipped" 7 0 sampleOrder
    (by decide) (by simp [oneOrderState, findIndex, sampleOrder])
    (by simp [oneOrderState])

end OrdersSvc
